import Mathlib

/-!
Verification of the crossblade module's specification against its source.

The repository consists of two concatenated variants of a TypeScript
type-declaration file (here embedded as the `V1` and `V2` families of
schema values) and a gulp build script (`gulpfile.cjs`, embedded in the
`Gulp` namespace as pure functions over an explicit file-system state).
-/

namespace Schema

/-- A small universe of the TypeScript type expressions appearing in the
declaration files.  `ref s` stands for a reference to a named interface,
`soundTy` for the host engine's `Sound` class, `eventKeyV1`/`eventKeyV2`
for the `CrossbladeEventKey` union of the respective declaration variant
(whose members are listed separately as `crossbladeEventKeysV1/V2`). -/
inductive Ty where
  | string : Ty
  | number : Ty
  | boolean : Ty
  | soundTy : Ty
  | eventKeyV1 : Ty
  | eventKeyV2 : Ty
  | strLit : String → Ty
  | list : Ty → Ty
  | mapTy : Ty → Ty → Ty
  | recordTy : Ty → Ty → Ty
  | unionTy : Ty → Ty → Ty
  | ref : String → Ty
deriving DecidableEq, Repr

/-- One declared field of an interface or class: its name, whether it is
optional (`?` in TypeScript), and its declared type. -/
structure Field where
  name : String
  optional : Bool
  ty : Ty
deriving DecidableEq, Repr

/-- An interface (or class) declaration: the types it extends and its own
declared fields, in declaration order. -/
structure Interface where
  parents : List Ty := []
  fields : List Field
deriving DecidableEq, Repr

/-- Whether the interface declares a field with the given name. -/
def Interface.hasField (i : Interface) (n : String) : Bool :=
  i.fields.any (fun f => f.name = n)

/-- The declared type of the named field, when present. -/
def Interface.fieldTy (i : Interface) (n : String) : Option Ty :=
  (i.fields.find? (fun f => f.name = n)).map Field.ty

/-- Whether a type expression is a list type. -/
def Ty.isList : Ty → Bool
  | .list _ => true
  | _ => false

/-- A flat (one-dimensional) list type: a list whose element type is not
itself a list. -/
def Ty.isFlatList : Ty → Bool
  | .list t => !t.isList
  | _ => false

/-! ### First declaration variant (lines 1–96 of the declaration source) -/

/-- `type CrossbladeEventKey` of the first variant: the five-member
string-literal union. -/
def crossbladeEventKeysV1 : List String :=
  ["COMBAT_DISPOSITION_FRIENDLY", "COMBAT_DISPOSITION_NEUTRAL",
   "COMBAT_DISPOSITION_HOSTILE", "GAME_PAUSED", "DEFAULT"]

/-- `interface PlaylistUpdateData` of the first variant. -/
def PlaylistUpdateDataV1 : Interface :=
  { fields :=
      [⟨"playing", true, .boolean⟩,
       ⟨"sounds", true, .list (.ref "PlaylistSoundUpdateData")⟩] }

/-- `interface PlaylistSoundUpdateData` of the first variant. -/
def PlaylistSoundUpdateDataV1 : Interface :=
  { fields :=
      [⟨"_id", false, .string⟩,
       ⟨"playing", true, .boolean⟩,
       ⟨"pausedTime", true, .number⟩] }

/-- `abstract class CrossbladePlaylistSound extends PlaylistSound` of the
first variant; `_crossbladeSounds` is declared `protected`. -/
def CrossbladePlaylistSoundV1 : Interface :=
  { parents := [.ref "PlaylistSound"],
    fields :=
      [⟨"crossbladeSounds", true, .mapTy .eventKeyV1 (.list .soundTy)⟩,
       ⟨"_crossbladeSounds", true, .mapTy .eventKeyV1 (.list .soundTy)⟩] }

/-- `interface SoundLayer` of the first variant. -/
def SoundLayerV1 : Interface :=
  { fields :=
      [⟨"src", true, .string⟩,
       ⟨"events", true, .list .eventKeyV1⟩] }

/-- `interface CrossbladeEvent` of the first variant. -/
def CrossbladeEventV1 : Interface :=
  { fields :=
      [⟨"label", false, .string⟩,
       ⟨"description", false, .string⟩] }

/-- `interface CrossbladeSoundLayer extends Record<string, string | string[]>`
of the first variant. -/
def CrossbladeSoundLayerV1 : Interface :=
  { parents := [.recordTy .string (.unionTy .string (.list .string))],
    fields :=
      [⟨"src", false, .string⟩,
       ⟨"events", false, .list .string⟩] }

/-- The anonymous object type of the `crossblade` field of
`CrossbladeFlags` in the first variant. -/
def CrossbladeFlagsInnerV1 : Interface :=
  { fields := [⟨"soundLayers", true, .list (.ref "CrossbladeSoundLayer")⟩] }

/-- `interface CrossbladeFlags` of the first variant. -/
def CrossbladeFlagsV1 : Interface :=
  { fields := [⟨"crossblade", true, .ref "CrossbladeFlagsInner"⟩] }

/-! ### Second declaration variant (lines 97–199 of the declaration source) -/

/-- `type CrossbladeEventKey` of the second variant ('COMBATANT_TAG' is
commented out in the source). -/
def crossbladeEventKeysV2 : List String :=
  ["DEFAULT", "COMBATANT", "GAME", "CUSTOM"]

/-- `interface PlaylistUpdateData` of the second variant. -/
def PlaylistUpdateDataV2 : Interface :=
  { fields :=
      [⟨"playing", true, .boolean⟩,
       ⟨"sounds", true, .list (.ref "PlaylistSoundUpdateData")⟩] }

/-- `interface PlaylistSoundUpdateData` of the second variant. -/
def PlaylistSoundUpdateDataV2 : Interface :=
  { fields :=
      [⟨"_id", false, .string⟩,
       ⟨"playing", true, .boolean⟩,
       ⟨"pausedTime", true, .number⟩] }

/-- `abstract class CrossbladePlaylistSound extends PlaylistSound` of the
second variant; `_cbSoundLayers` is declared `protected`. -/
def CrossbladePlaylistSoundV2 : Interface :=
  { parents := [.ref "PlaylistSound"],
    fields :=
      [⟨"cbSoundLayers", true, .mapTy .soundTy (.list .string)⟩,
       ⟨"_cbSoundLayers", true, .mapTy .soundTy (.list .string)⟩] }

/-- `interface SoundLayer` of the second variant: note `events` is
`string[][]`. -/
def SoundLayerV2 : Interface :=
  { fields :=
      [⟨"src", true, .string⟩,
       ⟨"events", true, .list (.list .string)⟩] }

/-- `interface CrossbladeEvent` of the second variant. -/
def CrossbladeEventV2 : Interface :=
  { fields :=
      [⟨"key", false, .eventKeyV2⟩,
       ⟨"label", false, .string⟩,
       ⟨"description", false, .string⟩,
       ⟨"options", true, .recordTy .string .string⟩,
       ⟨"isCustom", true, .boolean⟩] }

/-- `interface CrossbladeSoundLayer extends Record<string, string | string[]>`
of the second variant. -/
def CrossbladeSoundLayerV2 : Interface :=
  { parents := [.recordTy .string (.unionTy .string (.list .string))],
    fields :=
      [⟨"src", false, .string⟩,
       ⟨"events", false, .list .string⟩] }

/-- The anonymous object type of the `crossblade` field of
`CrossbladeFlags` in the second variant. -/
def CrossbladeFlagsInnerV2 : Interface :=
  { fields := [⟨"soundLayers", true, .list (.ref "CrossbladeSoundLayer")⟩] }

/-- `interface CrossbladeFlags` of the second variant. -/
def CrossbladeFlagsV2 : Interface :=
  { fields := [⟨"crossblade", true, .ref "CrossbladeFlagsInner"⟩] }

/-! ### Shapes stated by the specification, written from the spec's words -/

/-- The wire-payload shape the spec states for `PlaylistUpdateData`:
optional boolean `playing` and an optional `sounds` list of
`PlaylistSoundUpdateData`, with no other fields. -/
def specPlaylistUpdateData : Interface :=
  { fields :=
      [⟨"playing", true, .boolean⟩,
       ⟨"sounds", true, .list (.ref "PlaylistSoundUpdateData")⟩] }

/-- The wire-payload shape the spec states for `PlaylistSoundUpdateData`:
mandatory string `_id`, optional boolean `playing`, optional numeric
`pausedTime`, with no other fields. -/
def specPlaylistSoundUpdateData : Interface :=
  { fields :=
      [⟨"_id", false, .string⟩,
       ⟨"playing", true, .boolean⟩,
       ⟨"pausedTime", true, .number⟩] }

end Schema

namespace DevMode

/-- `enum LogLevel` from the declaration source (identical in both
variants), with its declared numeric values given by `LogLevel.toNat`. -/
inductive LogLevel where
  | NONE | INFO | ERROR | DEBUG | WARN | ALL
deriving DecidableEq, Repr

/-- The numeric value each `LogLevel` enum member is declared with. -/
def LogLevel.toNat : LogLevel → Nat
  | .NONE => 0
  | .INFO => 1
  | .ERROR => 2
  | .DEBUG => 3
  | .WARN => 4
  | .ALL => 5

/-- The `kind` argument of the dev-mode API: `'boolean' | 'level'`. -/
inductive DebugKind where
  | boolean | level
deriving DecidableEq, Repr

/-- The `boolean | LogLevel` return type of `getPackageDebugValue`. -/
inductive DebugValue where
  | bool : Bool → DebugValue
  | level : LogLevel → DebugValue
deriving DecidableEq, Repr

/-- The optional host debug-mode service, abstracted to the one operation
the claims need: its `getPackageDebugValue` implementation. -/
structure DevModeApi where
  getValue : String → DebugKind → DebugValue

/-- Modelled from the spec: the module's debug-value adapter itself is not
among the provided sources (only the `DevModeApi` interface declaration
is), so its behaviour is taken from the spec's words: "If the debug-mode
service is unavailable, `getPackageDebugValue` returns `false` (boolean
kind) or `NONE`/lowest level (level kind) without throwing."  The total
return type records that no exception path exists. -/
def getPackageDebugValue (api : Option DevModeApi) (packageName : String)
    (kind : DebugKind) : DebugValue :=
  match api with
  | none =>
    match kind with
    | .boolean => .bool false
    | .level => .level .NONE
  | some api => api.getValue packageName kind

end DevMode

namespace Runtime

/-- The runtime value shape of `interface PlaylistSoundUpdateData`
(identical in both declaration variants): mandatory `_id`, optional
`playing` and `pausedTime`. -/
structure PlaylistSoundUpdateData where
  _id : String
  playing : Option Bool
  pausedTime : Option ℚ
deriving DecidableEq, Repr

/-- The runtime value shape of `interface PlaylistUpdateData` (identical
in both declaration variants). -/
structure PlaylistUpdateData where
  playing : Option Bool
  sounds : Option (List PlaylistSoundUpdateData)
deriving DecidableEq, Repr

/-- A client's local playback state for one playlist sound. -/
structure ClientSound where
  _id : String
  playing : Bool
  pausedTime : ℚ
deriving DecidableEq, Repr

/-- A client's local playback state for one playlist: the playlist-level
playing flag and the per-sound states. -/
structure ClientState where
  playing : Bool
  sounds : List ClientSound
deriving DecidableEq, Repr

/-- Modelled from the spec: the receiving client's payload-application
routine is not among the provided sources (only the payload interfaces
are), so it is taken from the spec's words: "each message fully describes
the desired end state per sound, not a delta" and the §8 scenario where a
receiving client's local state for the sound takes the payload's field
values "regardless of prior state".  Each per-sound entry overwrites the
fields it carries on the matching sound. -/
def applySoundUpdate (u : PlaylistSoundUpdateData) (c : ClientSound) :
    ClientSound :=
  if c._id = u._id then
    { c with
      playing := u.playing.getD c.playing,
      pausedTime := u.pausedTime.getD c.pausedTime }
  else c

/-- Modelled from the spec (see `applySoundUpdate`): applying a
`PlaylistUpdateData` payload sets the playlist-level playing flag when the
payload carries one and folds every per-sound entry over the per-sound
states. -/
def applyPlaylistUpdate (p : PlaylistUpdateData) (s : ClientState) :
    ClientState :=
  { playing := p.playing.getD s.playing,
    sounds :=
      (p.sounds.getD []).foldl
        (fun ss u => ss.map (applySoundUpdate u)) s.sounds }

/-- Every per-sound entry of a payload applied, in order, to one local
sound state (the element-wise view of `applyPlaylistUpdate`). -/
def applyAllToSound (us : List PlaylistSoundUpdateData) (c : ClientSound) :
    ClientSound :=
  us.foldl (fun c u => applySoundUpdate u c) c

/-- The value one optional field of the sound with the given id holds
after a list of per-sound entries is applied over a starting value:
every matching entry that carries the field overwrites it. -/
def overrideField (get : PlaylistSoundUpdateData → Option α) (id : String)
    (us : List PlaylistSoundUpdateData) (a : α) : α :=
  us.foldl (fun cur u => if id = u._id then (get u).getD cur else cur) a

end Runtime

namespace Gulp

/-! Embedding of `gulpfile.cjs`.  Paths are modelled as plain strings that
are already resolved: `path.resolve` of one absolute argument is the
identity, and `path.resolve(a, b, ..)` joins its components with `/`.
The configuration constants are those of the CONFIGURATION block. -/

def name : String := "crossblade"

def sourceDirectory : String := "./src"

def distDirectory : String := "./dist"

def staticFiles : List String :=
  ["assets", "fonts", "lang", "packs", "templates", "module.json"]

def projectDirectory : String := "."

def projectFiles : List String := ["README.md", "CHANGELOG.md"]

/-! ### Static-file staging (`copyFiles`) -/

/-- A content-addressed file system: the list of existing entries, each a
path paired with its content (a directory's recursive content is
abstracted to one entry). -/
def ContentFS := List (String × String)
deriving DecidableEq

/-- `fs.existsSync` on the content-addressed file system. -/
def cExists (fs : ContentFS) (p : String) : Bool :=
  (fs.find? (fun e => e.1 = p)).isSome

/-- The content stored at a path, when the path exists. -/
def cRead (fs : ContentFS) (p : String) : Option String :=
  (fs.find? (fun e => e.1 = p)).map (fun e => e.2)

/-- Store content at a path, replacing any previous entry. -/
def cWrite (fs : ContentFS) (p c : String) : ContentFS :=
  (p, c) :: fs.filter (fun e => e.1 ≠ p)

/-- `fs.copy(src, dst)` of the fs-extra library: copies the entry at
`src` to `dst`, and rejects when `src` does not exist. -/
def fsCopy (fs : ContentFS) (src dst : String) : Except String ContentFS :=
  match cRead fs src with
  | some c => .ok (cWrite fs dst c)
  | none => .error "Source does not exist"

/-- The (source, destination) pairs `copyFiles` iterates over: the static
files rooted at the source directory, then the project files rooted at
the project directory, all staged into the dist directory. -/
def copyPairs : List (String × String) :=
  staticFiles.map
    (fun f => (sourceDirectory ++ "/" ++ f, distDirectory ++ "/" ++ f))
  ++ projectFiles.map
    (fun f => (projectDirectory ++ "/" ++ f, distDirectory ++ "/" ++ f))

/-- One iteration of the `copyFiles` loops: copy the pair only when the
source exists (`if (fs.existsSync(..)) await fs.copy(..)`). -/
def copyStep (fs : ContentFS) (sd : String × String) :
    Except String ContentFS :=
  if cExists fs sd.1 then fsCopy fs sd.1 sd.2 else .ok fs

/-- `async function copyFiles()` from `gulpfile.cjs`: the two guarded
copy loops, sequenced in the error monad of the underlying copies. -/
def copyFiles (fs : ContentFS) : Except String ContentFS :=
  copyPairs.foldlM copyStep fs

/-- The skipping behaviour the claim describes, on one pair: copy the
source's content when it exists, otherwise leave the file system alone. -/
def copyStepSkipping (fs : ContentFS) (sd : String × String) : ContentFS :=
  match cRead fs sd.1 with
  | some c => cWrite fs sd.2 c
  | none => fs

/-- The skipping behaviour the claim describes, as a total function:
every pair whose source exists is copied, absent sources are skipped, and
no error can arise. -/
def copyFilesSkipping (fs : ContentFS) : ContentFS :=
  copyPairs.foldl copyStepSkipping fs

/-! ### `getDataPath` and `link` -/

/-- The parsed `foundryconfig.json` contents: an optional `dataPath`
property. -/
structure FoundryConfig where
  dataPath : Option String
deriving DecidableEq, Repr

/-- A file system for the link step: the list of existing regular entries
(files and directories) and the list of symbolic links, each a link path
paired with its resolved target. -/
structure FS where
  paths : List String
  symlinks : List (String × String)
deriving DecidableEq, Repr

/-- The target recorded by the symlink at `p`, when one exists. -/
def FS.linkTarget (fs : FS) (p : String) : Option String :=
  (fs.symlinks.find? (fun e => e.1 = p)).map (fun e => e.2)

/-- `fs.existsSync`: a path exists when it is a regular entry, or a
symlink whose (one-level) target is a regular entry — `existsSync`
follows symlinks, so a dangling symlink does not exist. -/
def FS.existsSync (fs : FS) (p : String) : Bool :=
  fs.paths.contains p ||
    (match fs.linkTarget p with
     | some t => fs.paths.contains t
     | none => false)

/-- lstat-style existence, the check `fs.symlink` makes before creating a
link: a regular entry or a symlink entry at the path, dangling or not. -/
def FS.lexists (fs : FS) (p : String) : Bool :=
  fs.paths.contains p || (fs.linkTarget p).isSome

/-- `fs.ensureDir`: create the directory when it is absent. -/
def FS.ensureDir (fs : FS) (p : String) : FS :=
  if fs.paths.contains p then fs else { fs with paths := p :: fs.paths }

/-- `fs.remove`: delete whatever entry (regular or symlink) is at the
path; removing an absent path is a no-op. -/
def FS.remove (fs : FS) (p : String) : FS :=
  { paths := fs.paths.filter (fun q => q ≠ p),
    symlinks := fs.symlinks.filter (fun e => e.1 ≠ p) }

/-- `fs.symlink(target, path)`: record the link, or reject with `EEXIST`
when anything (also a dangling symlink) already occupies the path. -/
def FS.symlink (fs : FS) (target p : String) : Except String FS :=
  if fs.lexists p then .error "EEXIST: file already exists"
  else .ok { fs with symlinks := (p, target) :: fs.symlinks }

/-- `function getDataPath()` from `gulpfile.cjs`: read the configured
`dataPath` (a missing or empty string property is falsy, hence "not
defined"), require it to exist on the file system, and return it
resolved. -/
def getDataPath (fs : FS) (config : FoundryConfig) : Except String String :=
  match config.dataPath with
  | some p =>
    if p = "" then .error "No User Data path defined in foundryconfig.json"
    else if fs.existsSync p then .ok p
    else .error "User Data path invalid, no Data directory found"
  | none => .error "No User Data path defined in foundryconfig.json"

/-- `path.resolve(getDataPath(), 'Data', destinationDirectory, name)` for
the module's destination directory. -/
def linkDirectoryOf (dataPath : String) : String :=
  dataPath ++ "/Data/modules/" ++ name

/-- `path.resolve(sourceDirectory, 'module.json')`. -/
def moduleJsonPath : String := sourceDirectory ++ "/module.json"

/-- `async function link()` from `gulpfile.cjs`, with the `--clean` flag
passed explicitly.  Returns the resulting file system together with the
error, when one is thrown; a throw leaves the state reached so far. -/
def link (fs : FS) (config : FoundryConfig) (clean : Bool) :
    FS × Option String :=
  if fs.existsSync moduleJsonPath then
    match getDataPath fs config with
    | .error e => (fs, some e)
    | .ok dataPath =>
      let linkDirectory := linkDirectoryOf dataPath
      if clean then (fs.remove linkDirectory, none)
      else if fs.existsSync linkDirectory then (fs, none)
      else
        let fs1 := fs.ensureDir (dataPath ++ "/Data/modules")
        match fs1.symlink distDirectory linkDirectory with
        | .ok fs2 => (fs2, none)
        | .error e => (fs1, some e)
  else (fs, some "Could not find module.json")

end Gulp

/-!
## Theorems

One theorem per claim, with shared helper lemmas where proofs need them.
-/

open Schema DevMode Runtime Gulp

/-- C1: the two duplicated declaration variants are divergent — the first
variant's `CrossbladeEventKey` union is exactly the five
combat-disposition/game-paused/default keys, the second's is exactly
DEFAULT/COMBATANT/GAME/CUSTOM, the two unions share exactly `DEFAULT`,
and the per-sound runtime map field differs in both name
(`crossbladeSounds` vs `cbSoundLayers`) and type
(`Map<CrossbladeEventKey, Sound[]>` vs `Map<Sound, string[]>`), so the
two embeddings of the event-key set and of the runtime-map class are not
equal. -/
theorem crossblade_variants_divergent :
    (∀ s, s ∈ crossbladeEventKeysV1 ↔
      s = "COMBAT_DISPOSITION_FRIENDLY" ∨ s = "COMBAT_DISPOSITION_NEUTRAL" ∨
      s = "COMBAT_DISPOSITION_HOSTILE" ∨ s = "GAME_PAUSED" ∨ s = "DEFAULT")
    ∧ (∀ s, s ∈ crossbladeEventKeysV2 ↔
      s = "DEFAULT" ∨ s = "COMBATANT" ∨ s = "GAME" ∨ s = "CUSTOM")
    ∧ (∀ s, (s ∈ crossbladeEventKeysV1 ∧ s ∈ crossbladeEventKeysV2) ↔
      s = "DEFAULT")
    ∧ CrossbladePlaylistSoundV1.fieldTy "crossbladeSounds"
      = some (.mapTy .eventKeyV1 (.list .soundTy))
    ∧ CrossbladePlaylistSoundV2.fieldTy "cbSoundLayers"
      = some (.mapTy .soundTy (.list .string))
    ∧ CrossbladePlaylistSoundV1.hasField "cbSoundLayers" = false
    ∧ CrossbladePlaylistSoundV2.hasField "crossbladeSounds" = false
    ∧ ("crossbladeSounds" : String) ≠ "cbSoundLayers"
    ∧ Ty.mapTy .eventKeyV1 (.list .soundTy) ≠ .mapTy .soundTy (.list .string)
    ∧ crossbladeEventKeysV1 ≠ crossbladeEventKeysV2
    ∧ CrossbladePlaylistSoundV1 ≠ CrossbladePlaylistSoundV2 := by
  refine ⟨?_, ?_, ?_, by decide, by decide, by decide, by decide,
    by decide, by decide, by decide, by decide⟩
  · intro s
    simp [crossbladeEventKeysV1]
  · intro s
    simp [crossbladeEventKeysV2]
  · intro s
    constructor
    · rintro ⟨h1, h2⟩
      simp [crossbladeEventKeysV1] at h1
      rcases h1 with h | h | h | h | h <;> subst h <;>
        first
          | rfl
          | exact absurd h2 (by decide)
    · rintro rfl
      exact ⟨by decide, by decide⟩

/-- C2: in both declaration variants the wire payload types have exactly
the shapes the spec states — `PlaylistUpdateData` is an optional boolean
`playing` plus an optional `sounds` list of `PlaylistSoundUpdateData`,
and `PlaylistSoundUpdateData` is a mandatory string `_id`, an optional
boolean `playing` and an optional numeric `pausedTime`, with no other
fields. -/
theorem wire_payload_shapes_match_spec :
    PlaylistUpdateDataV1 = specPlaylistUpdateData
    ∧ PlaylistUpdateDataV2 = specPlaylistUpdateData
    ∧ PlaylistSoundUpdateDataV1 = specPlaylistSoundUpdateData
    ∧ PlaylistSoundUpdateDataV2 = specPlaylistSoundUpdateData :=
  ⟨rfl, rfl, rfl, rfl⟩

/-- C3: in both declaration variants the document-flag schema nests an
optional `soundLayers` list under an optional `crossblade` key, and each
list element is a record with a mandatory string `src` and a mandatory
`events` that is a flat list of strings. -/
theorem flag_schema_shape :
    CrossbladeFlagsV1.fields
      = [⟨"crossblade", true, .ref "CrossbladeFlagsInner"⟩]
    ∧ CrossbladeFlagsV2.fields
      = [⟨"crossblade", true, .ref "CrossbladeFlagsInner"⟩]
    ∧ CrossbladeFlagsInnerV1.fields
      = [⟨"soundLayers", true, .list (.ref "CrossbladeSoundLayer")⟩]
    ∧ CrossbladeFlagsInnerV2.fields
      = [⟨"soundLayers", true, .list (.ref "CrossbladeSoundLayer")⟩]
    ∧ CrossbladeSoundLayerV1.fields
      = [⟨"src", false, .string⟩, ⟨"events", false, .list .string⟩]
    ∧ CrossbladeSoundLayerV2.fields
      = [⟨"src", false, .string⟩, ⟨"events", false, .list .string⟩]
    ∧ Ty.isFlatList (.list .string) = true :=
  ⟨rfl, rfl, rfl, rfl, rfl, rfl, rfl⟩

/-- C4 counterexample: the claim that every declaration variant's
`CrossbladeEvent` carries a key and an optional custom flag is false at
the first variant, which declares neither a `key` nor an `isCustom`
field. -/
theorem crossblade_event_v1_missing_fields :
    CrossbladeEventV1.hasField "key" = false
    ∧ CrossbladeEventV1.hasField "isCustom" = false := by
  decide

/-- C4 amended: the second declaration variant's `CrossbladeEvent`
carries a key, a label, a description and an optional custom flag
(`isCustom`, alongside an optional `options` map), while the first
variant's carries only a label and a description. -/
theorem crossblade_event_fields_by_variant :
    CrossbladeEventV2.fields
      = [⟨"key", false, .eventKeyV2⟩,
         ⟨"label", false, .string⟩,
         ⟨"description", false, .string⟩,
         ⟨"options", true, .recordTy .string .string⟩,
         ⟨"isCustom", true, .boolean⟩]
    ∧ CrossbladeEventV1.fields
      = [⟨"label", false, .string⟩, ⟨"description", false, .string⟩] :=
  ⟨rfl, rfl⟩

/-- C5 counterexample: the claim that in every declaration variant
`SoundLayer.events` is a one-dimensional list is false at the second
variant, whose `events` field is declared `string[][]`, a nested list of
lists. -/
theorem sound_layer_v2_events_nested :
    SoundLayerV2.fieldTy "events" = some (.list (.list .string))
    ∧ Ty.isFlatList (.list (.list .string)) = false := by
  decide

/-- C5 amended: the first declaration variant's `SoundLayer` pairs an
optional audio-source string with an optional flat list of event keys,
while the second variant's `events` field is instead a nested list of
lists of strings. -/
theorem sound_layer_events_by_variant :
    SoundLayerV1.fields
      = [⟨"src", true, .string⟩, ⟨"events", true, .list .eventKeyV1⟩]
    ∧ Ty.isFlatList (.list .eventKeyV1) = true
    ∧ SoundLayerV2.fields
      = [⟨"src", true, .string⟩, ⟨"events", true, .list (.list .string)⟩]
    ∧ Ty.isFlatList (.list (.list .string)) = false :=
  ⟨rfl, rfl, rfl, rfl⟩

/-- C6: with the debug-mode service absent, `getPackageDebugValue`
returns the benign default for every package name — `false` for the
boolean kind and `LogLevel.NONE` for the level kind — and `NONE` is the
numerically least member (value 0) of the `LogLevel` enumeration. -/
theorem debug_value_defaults_without_service :
    (∀ pn : String,
      getPackageDebugValue none pn .boolean = .bool false
      ∧ getPackageDebugValue none pn .level = .level .NONE)
    ∧ LogLevel.toNat .NONE = 0
    ∧ ∀ l : LogLevel, LogLevel.toNat .NONE ≤ l.toNat := by
  refine ⟨fun pn => ⟨rfl, rfl⟩, rfl, fun l => Nat.zero_le _⟩

/-! ### Helper lemmas for payload idempotence (C7) -/

theorem applySoundUpdate_id (u : PlaylistSoundUpdateData) (c : ClientSound) :
    (applySoundUpdate u c)._id = c._id := by
  unfold applySoundUpdate
  split <;> rfl

theorem foldl_map_applySoundUpdate (us : List PlaylistSoundUpdateData)
    (ss : List ClientSound) :
    us.foldl (fun ss u => ss.map (applySoundUpdate u)) ss
      = ss.map (applyAllToSound us) := by
  induction us generalizing ss with
  | nil =>
    have h0 : applyAllToSound ([] : List PlaylistSoundUpdateData)
        = fun c => c := rfl
    simp [h0]
  | cons u us ih =>
    simp only [List.foldl_cons, ih, List.map_map]
    rfl

theorem applyAllToSound_eq_overrides (us : List PlaylistSoundUpdateData)
    (c : ClientSound) :
    applyAllToSound us c
      = { _id := c._id,
          playing := overrideField (fun u => u.playing) c._id us c.playing,
          pausedTime :=
            overrideField (fun u => u.pausedTime) c._id us c.pausedTime } := by
  induction us generalizing c with
  | nil =>
    simp [applyAllToSound, overrideField]
  | cons u us ih =>
    have hstep : applyAllToSound (u :: us) c
        = applyAllToSound us (applySoundUpdate u c) := rfl
    rw [hstep, ih]
    by_cases h : c._id = u._id <;>
      simp [applySoundUpdate, overrideField, h]

theorem overrideField_const_or_id (get : PlaylistSoundUpdateData → Option α)
    (id : String) (us : List PlaylistSoundUpdateData) :
    (∀ a1 a2, overrideField get id us a1 = overrideField get id us a2)
    ∨ (∀ a, overrideField get id us a = a) := by
  induction us with
  | nil => exact Or.inr (fun a => rfl)
  | cons u us ih =>
    have hstep : ∀ a, overrideField get id (u :: us) a
        = overrideField get id us (if id = u._id then (get u).getD a else a) :=
      fun a => rfl
    rcases ih with hconst | hid
    · exact Or.inl (fun a1 a2 => by rw [hstep, hstep]; exact hconst _ _)
    · by_cases h : id = u._id
      · cases hg : get u with
        | some v =>
          refine Or.inl (fun a1 a2 => ?_)
          rw [hstep, hstep]
          simp [h, hg]
        | none =>
          refine Or.inr (fun a => ?_)
          rw [hstep]
          simpa [h, hg] using hid a
      · refine Or.inr (fun a => ?_)
        rw [hstep]
        simp [h, hid]

theorem overrideField_idem (get : PlaylistSoundUpdateData → Option α)
    (id : String) (us : List PlaylistSoundUpdateData) (a : α) :
    overrideField get id us (overrideField get id us a)
      = overrideField get id us a := by
  rcases overrideField_const_or_id get id us with hconst | hid
  · exact hconst _ _
  · rw [hid, hid]

theorem applyAllToSound_idem (us : List PlaylistSoundUpdateData)
    (c : ClientSound) :
    applyAllToSound us (applyAllToSound us c) = applyAllToSound us c := by
  rw [applyAllToSound_eq_overrides us c, applyAllToSound_eq_overrides us]
  simp [overrideField_idem]

/-- C7: applying a `PlaylistUpdateData` payload to a client's local
playback state is idempotent — for every payload and starting state,
applying the payload twice ends in the same state as applying it once. -/
theorem playlist_update_idempotent (p : PlaylistUpdateData)
    (s : ClientState) :
    applyPlaylistUpdate p (applyPlaylistUpdate p s)
      = applyPlaylistUpdate p s := by
  unfold applyPlaylistUpdate
  simp only [ClientState.mk.injEq]
  constructor
  · cases p.playing <;> simp
  · rw [foldl_map_applySoundUpdate, foldl_map_applySoundUpdate,
      List.map_map]
    exact List.map_congr_left (fun c _ => applyAllToSound_idem _ c)

/-- C8: `getDataPath` throws "No User Data path defined" exactly when the
configuration defines no (non-empty) `dataPath`; with a defined
`dataPath` it returns the path when it exists on the file system and
throws "User Data path invalid" otherwise; and the install location
`link` derives from the returned path is
`<dataPath>/Data/modules/crossblade`. -/
theorem get_data_path_behaviour (fs : FS) (config : FoundryConfig)
    (p : String) (hp : p ≠ "") :
    (getDataPath fs config
        = .error "No User Data path defined in foundryconfig.json"
      ↔ config.dataPath = none ∨ config.dataPath = some "")
    ∧ (getDataPath fs ⟨some p⟩
        = if fs.existsSync p then .ok p
          else .error "User Data path invalid, no Data directory found")
    ∧ linkDirectoryOf p = p ++ "/Data/modules/crossblade" := by
  refine ⟨?_, ?_, ?_⟩
  · constructor
    · intro h
      cases hc : config.dataPath with
      | none => exact Or.inl rfl
      | some q =>
        unfold getDataPath at h
        rw [hc] at h
        by_cases hq : q = ""
        · exact Or.inr (by rw [hq])
        · simp only [if_neg hq] at h
          split at h
          · exact absurd h (by simp)
          · injection h with h
            exact absurd h (by decide)
    · rintro (h | h) <;> simp [getDataPath, h]
  · simp [getDataPath, hp]
  · unfold linkDirectoryOf name
    rw [String.append_assoc]
    rfl

/-- Closed instance of `get_data_path_behaviour` at a concrete file
system, configuration and path. -/
theorem get_data_path_behaviour_witness :
    (getDataPath ⟨["/vtt"], []⟩ ⟨none⟩
        = .error "No User Data path defined in foundryconfig.json"
      ↔ (FoundryConfig.mk none).dataPath = none
        ∨ (FoundryConfig.mk none).dataPath = some "")
    ∧ (getDataPath ⟨["/vtt"], []⟩ ⟨some "/vtt"⟩
        = if FS.existsSync ⟨["/vtt"], []⟩ "/vtt" then .ok "/vtt"
          else .error "User Data path invalid, no Data directory found")
    ∧ linkDirectoryOf "/vtt" = "/vtt/Data/modules/crossblade" :=
  get_data_path_behaviour ⟨["/vtt"], []⟩ ⟨none⟩ "/vtt" (by decide)

/-! ### Helper lemma for the static-file staging step (C9) -/

theorem copy_foldlM_ok (pairs : List (String × String)) :
    ∀ fs : ContentFS,
      pairs.foldlM copyStep fs = .ok (pairs.foldl copyStepSkipping fs) := by
  induction pairs with
  | nil => intro fs; rfl
  | cons sd pairs ih =>
    intro fs
    have hstep : copyStep fs sd = .ok (copyStepSkipping fs sd) := by
      unfold copyStep copyStepSkipping fsCopy cExists cRead
      cases hf : List.find? (fun e => e.1 = sd.1) fs <;> simp [hf]
    rw [List.foldlM_cons, hstep]
    simp only [List.foldl_cons]
    exact ih _

/-- C9: the static-file staging step `copyFiles` never fails, whatever
the state of the file system — it copies each listed static and project
file exactly when it exists at its source path and skips absent ones, so
a missing file never aborts the copying of the remaining files. -/
theorem copy_files_skips_missing (fs : ContentFS) :
    copyFiles fs = .ok (copyFilesSkipping fs) :=
  copy_foldlM_ok copyPairs fs

/-! ### Helper lemmas for the link step (C10) -/

theorem ensureDir_symlinks (fs : FS) (q : String) :
    (fs.ensureDir q).symlinks = fs.symlinks := by
  unfold FS.ensureDir
  split <;> rfl

theorem ensureDir_contains (fs : FS) (q p : String)
    (h : fs.paths.contains p = true) :
    (fs.ensureDir q).paths.contains p = true := by
  unfold FS.ensureDir
  split
  · exact h
  · simp at h ⊢
    exact Or.inr h

theorem ensureDir_contains_self (fs : FS) (q : String) :
    (fs.ensureDir q).paths.contains q = true := by
  unfold FS.ensureDir
  split
  · assumption
  · simp

theorem ensureDir_of_contains (fs : FS) (q : String)
    (h : fs.paths.contains q = true) :
    fs.ensureDir q = fs := by
  unfold FS.ensureDir
  rw [if_pos h]

theorem ensureDir_linkTarget (fs : FS) (q p : String) :
    (fs.ensureDir q).linkTarget p = fs.linkTarget p := by
  unfold FS.linkTarget
  rw [ensureDir_symlinks]

theorem existsSync_ensureDir (fs : FS) (q p : String)
    (h : fs.existsSync p = true) :
    (fs.ensureDir q).existsSync p = true := by
  unfold FS.existsSync at h ⊢
  rw [ensureDir_linkTarget]
  rcases Bool.or_eq_true_iff.mp h with h1 | h2
  · exact Bool.or_eq_true_iff.mpr (Or.inl (ensureDir_contains fs q p h1))
  · refine Bool.or_eq_true_iff.mpr (Or.inr ?_)
    cases hl : fs.linkTarget p with
    | some t =>
      rw [hl] at h2
      exact ensureDir_contains fs q t h2
    | none =>
      rw [hl] at h2
      exact absurd h2 (by simp)

theorem existsSync_addlink (fs : FS) (l t p : String)
    (hl : fs.lexists l = false) (h : fs.existsSync p = true) :
    FS.existsSync ⟨fs.paths, (l, t) :: fs.symlinks⟩ p = true := by
  unfold FS.existsSync FS.lexists FS.linkTarget at *
  rcases Bool.or_eq_true_iff.mp h with h1 | h2
  · exact Bool.or_eq_true_iff.mpr (Or.inl h1)
  · refine Bool.or_eq_true_iff.mpr (Or.inr ?_)
    by_cases hlp : l = p
    · exfalso
      subst hlp
      rcases Bool.or_eq_false_iff.mp hl with ⟨-, hfind⟩
      cases hf : List.find? (fun e => e.1 = l) fs.symlinks with
      | some e => simp [hf] at hfind
      | none => simp [hf] at h2
    · rw [List.find?_cons]
      have : ((l, t).1 = p) = False := by simp [hlp]
      simp only [this, decide_False]
      exact h2

theorem lexists_addlink_self (ps : List String)
    (sl : List (String × String)) (l t : String) :
    FS.lexists ⟨ps, (l, t) :: sl⟩ l = true := by
  unfold FS.lexists FS.linkTarget
  simp [List.find?_cons]

theorem getDataPath_ok_inv (fs : FS) (cfg : FoundryConfig) (dp : String)
    (h : getDataPath fs cfg = .ok dp) :
    cfg.dataPath = some dp ∧ ¬ dp = "" ∧ fs.existsSync dp = true := by
  unfold getDataPath at h
  split at h
  · next p hp =>
    by_cases hq : p = ""
    · rw [if_pos hq] at h
      simp at h
    · rw [if_neg hq] at h
      by_cases he : fs.existsSync p = true
      · rw [if_pos he] at h
        injection h with hpd
        subst hpd
        exact ⟨hp, hq, he⟩
      · rw [if_neg he] at h
        simp at h
  · simp at h

theorem getDataPath_ok_of (fs : FS) (cfg : FoundryConfig) (dp : String)
    (hc : cfg.dataPath = some dp) (hq : ¬ dp = "")
    (he : fs.existsSync dp = true) :
    getDataPath fs cfg = .ok dp := by
  unfold getDataPath
  rw [hc]
  simp [hq, he]

theorem link_noclean_idem (fs : FS) (cfg : FoundryConfig) :
    (link (link fs cfg false).1 cfg false).1 = (link fs cfg false).1 := by
  by_cases h1 : (fs.existsSync moduleJsonPath) = true
  case neg =>
    have hrun : link fs cfg false = (fs, some "Could not find module.json") := by
      unfold link
      rw [if_neg h1]
    simp [hrun]
  case pos =>
    cases hdp : getDataPath fs cfg with
    | error e =>
      have hrun : link fs cfg false = (fs, some e) := by
        unfold link
        rw [if_pos h1, hdp]
      simp [hrun]
    | ok dp =>
      obtain ⟨hc, hq, he⟩ := getDataPath_ok_inv fs cfg dp hdp
      by_cases h3 : fs.existsSync (linkDirectoryOf dp) = true
      · have hrun : link fs cfg false = (fs, none) := by
          unfold link
          simp [h1, hdp, h3]
        simp [hrun]
      · by_cases h4 :
          (fs.ensureDir (dp ++ "/Data/modules")).lexists (linkDirectoryOf dp)
            = true
        · have hrun : link fs cfg false
              = (fs.ensureDir (dp ++ "/Data/modules"),
                 some "EEXIST: file already exists") := by
            unfold link FS.symlink
            simp [h1, hdp, h3, h4]
          rw [hrun]
          have hm1 : (fs.ensureDir (dp ++ "/Data/modules")).existsSync
              moduleJsonPath = true := existsSync_ensureDir _ _ _ h1
          have hdp1 : getDataPath (fs.ensureDir (dp ++ "/Data/modules")) cfg
              = .ok dp :=
            getDataPath_ok_of _ cfg dp hc hq (existsSync_ensureDir _ _ _ he)
          by_cases h5 : (fs.ensureDir (dp ++ "/Data/modules")).existsSync
              (linkDirectoryOf dp) = true
          · unfold link
            simp [hm1, hdp1, h5]
          · unfold link FS.symlink
            simp [hm1, hdp1, h5,
              ensureDir_of_contains _ _ (ensureDir_contains_self fs _), h4]
        · have hrun : link fs cfg false
              = (⟨(fs.ensureDir (dp ++ "/Data/modules")).paths,
                  (linkDirectoryOf dp, distDirectory)
                    :: (fs.ensureDir (dp ++ "/Data/modules")).symlinks⟩,
                 none) := by
            unfold link FS.symlink
            simp [h1, hdp, h3, h4]
          rw [hrun]
          have h4f : (fs.ensureDir (dp ++ "/Data/modules")).lexists
              (linkDirectoryOf dp) = false := Bool.eq_false_iff.mpr h4
          have hm2 : FS.existsSync
              ⟨(fs.ensureDir (dp ++ "/Data/modules")).paths,
               (linkDirectoryOf dp, distDirectory)
                 :: (fs.ensureDir (dp ++ "/Data/modules")).symlinks⟩
              moduleJsonPath = true :=
            existsSync_addlink _ _ _ _ h4f (existsSync_ensureDir _ _ _ h1)
          have he2 : FS.existsSync
              ⟨(fs.ensureDir (dp ++ "/Data/modules")).paths,
               (linkDirectoryOf dp, distDirectory)
                 :: (fs.ensureDir (dp ++ "/Data/modules")).symlinks⟩
              dp = true :=
            existsSync_addlink _ _ _ _ h4f (existsSync_ensureDir _ _ _ he)
          have hdp2 : getDataPath
              ⟨(fs.ensureDir (dp ++ "/Data/modules")).paths,
               (linkDirectoryOf dp, distDirectory)
                 :: (fs.ensureDir (dp ++ "/Data/modules")).symlinks⟩ cfg
              = .ok dp :=
            getDataPath_ok_of _ cfg dp hc hq he2
          by_cases h6 : FS.existsSync
              ⟨(fs.ensureDir (dp ++ "/Data/modules")).paths,
               (linkDirectoryOf dp, distDirectory)
                 :: (fs.ensureDir (dp ++ "/Data/modules")).symlinks⟩
              (linkDirectoryOf dp) = true
          · unfold link
            simp [hm2, hdp2, h6]
          · have hcp : (fs.ensureDir (dp ++ "/Data/modules")).paths.contains
                (dp ++ "/Data/modules") = true :=
              ensureDir_contains_self fs (dp ++ "/Data/modules")
            have hed : FS.ensureDir
                ⟨(fs.ensureDir (dp ++ "/Data/modules")).paths,
                 (linkDirectoryOf dp, distDirectory)
                   :: (fs.ensureDir (dp ++ "/Data/modules")).symlinks⟩
                (dp ++ "/Data/modules")
                = ⟨(fs.ensureDir (dp ++ "/Data/modules")).paths,
                   (linkDirectoryOf dp, distDirectory)
                     :: (fs.ensureDir (dp ++ "/Data/modules")).symlinks⟩ :=
              ensureDir_of_contains _ _ hcp
            have hlx : FS.lexists
                ⟨(fs.ensureDir (dp ++ "/Data/modules")).paths,
                 (linkDirectoryOf dp, distDirectory)
                   :: (fs.ensureDir (dp ++ "/Data/modules")).symlinks⟩
                (linkDirectoryOf dp) = true :=
              lexists_addlink_self _ _ _ _
            unfold link FS.symlink
            simp [hm2, hdp2, h6, hed, hlx]

theorem link_noclean_paths_mono (fs : FS) (cfg : FoundryConfig)
    (r : String) (hr : fs.paths.contains r = true) :
    ((link fs cfg false).1).paths.contains r = true := by
  by_cases h1 : (fs.existsSync moduleJsonPath) = true
  case neg =>
    have hrun : link fs cfg false = (fs, some "Could not find module.json") := by
      unfold link
      rw [if_neg h1]
    simpa [hrun] using hr
  case pos =>
    cases hdp : getDataPath fs cfg with
    | error e =>
      have hrun : link fs cfg false = (fs, some e) := by
        unfold link
        rw [if_pos h1, hdp]
      simpa [hrun] using hr
    | ok dp =>
      by_cases h3 : fs.existsSync (linkDirectoryOf dp) = true
      · have hrun : link fs cfg false = (fs, none) := by
          unfold link
          simp [h1, hdp, h3]
        simpa [hrun] using hr
      · by_cases h4 :
          (fs.ensureDir (dp ++ "/Data/modules")).lexists (linkDirectoryOf dp)
            = true
        · have hrun : link fs cfg false
              = (fs.ensureDir (dp ++ "/Data/modules"),
                 some "EEXIST: file already exists") := by
            unfold link FS.symlink
            simp [h1, hdp, h3, h4]
          rw [hrun]
          exact ensureDir_contains fs _ r hr
        · have hrun : link fs cfg false
              = (⟨(fs.ensureDir (dp ++ "/Data/modules")).paths,
                  (linkDirectoryOf dp, distDirectory)
                    :: (fs.ensureDir (dp ++ "/Data/modules")).symlinks⟩,
                 none) := by
            unfold link FS.symlink
            simp [h1, hdp, h3, h4]
          rw [hrun]
          exact ensureDir_contains fs _ r hr

/-- C10: the link step without the clean flag is idempotent on the
file-system state — running it twice from any state leaves the state one
run produces — it performs no change at all when the target link
directory already exists, and it never removes an existing entry; with
the clean flag set (and the preconditions for reaching that branch met)
it instead removes the link directory. -/
theorem link_idempotent_and_clean (fs g g2 : FS) (cfg : FoundryConfig)
    (q q2 r : String)
    (hEx : g.existsSync (linkDirectoryOf q) = true)
    (hm : g2.existsSync moduleJsonPath = true)
    (hq2 : ¬ q2 = "")
    (hd : g2.existsSync q2 = true)
    (hr : fs.paths.contains r = true) :
    (link (link fs cfg false).1 cfg false).1 = (link fs cfg false).1
    ∧ ((link fs cfg false).1).paths.contains r = true
    ∧ (link g ⟨some q⟩ false).1 = g
    ∧ link g2 ⟨some q2⟩ true = (g2.remove (linkDirectoryOf q2), none) := by
  refine ⟨link_noclean_idem fs cfg, link_noclean_paths_mono fs cfg r hr,
    ?_, ?_⟩
  · by_cases hgm : g.existsSync moduleJsonPath = true
    · by_cases hq : q = ""
      · have hdp : getDataPath g ⟨some q⟩
            = .error "No User Data path defined in foundryconfig.json" := by
          unfold getDataPath
          simp [hq]
        unfold link
        simp [hgm, hdp]
      · by_cases he : g.existsSync q = true
        · have hdp : getDataPath g ⟨some q⟩ = .ok q :=
            getDataPath_ok_of g ⟨some q⟩ q rfl hq he
          unfold link
          simp [hgm, hdp, hEx]
        · have hdp : getDataPath g ⟨some q⟩
              = .error "User Data path invalid, no Data directory found" := by
            unfold getDataPath
            simp [hq, he]
          unfold link
          simp [hgm, hdp]
    · unfold link
      simp [hgm]
  · have hdp : getDataPath g2 ⟨some q2⟩ = .ok q2 :=
      getDataPath_ok_of g2 ⟨some q2⟩ q2 rfl hq2 hd
    unfold link
    simp [hm, hdp]

/-- Closed instance of `link_idempotent_and_clean` at concrete file
systems, configurations and paths. -/
theorem link_idempotent_and_clean_witness :
    (link (link ⟨["a"], []⟩ ⟨none⟩ false).1 ⟨none⟩ false).1
        = (link ⟨["a"], []⟩ ⟨none⟩ false).1
    ∧ ((link ⟨["a"], []⟩ ⟨none⟩ false).1).paths.contains "a" = true
    ∧ (link ⟨["/vtt/Data/modules/crossblade"], []⟩ ⟨some "/vtt"⟩ false).1
        = ⟨["/vtt/Data/modules/crossblade"], []⟩
    ∧ link ⟨["./src/module.json", "/vtt"], []⟩ ⟨some "/vtt"⟩ true
        = (FS.remove ⟨["./src/module.json", "/vtt"], []⟩
            (linkDirectoryOf "/vtt"), none) :=
  link_idempotent_and_clean ⟨["a"], []⟩ ⟨["/vtt/Data/modules/crossblade"], []⟩
    ⟨["./src/module.json", "/vtt"], []⟩ ⟨none⟩ "/vtt" "/vtt" "a"
    (by decide) (by decide) (by decide) (by decide) (by decide)
